import Mathlib

/-!
Shallow embedding of the fitted-artifact exchange subsystem of the
n8n-nodes-sklearn repository: feature extraction from n8n items, the
spawn/close worker protocol, the explicit-parameter artifact arithmetic
replayed by the transform/predict worker scripts, and the result
projection loops of the StandardScaler, MinMaxScaler, LinearRegression,
LogisticRegression and GradientBoosting nodes.
-/

/-- A JSON-like value as held in an n8n item json object. The constructor
`nan` stands for the JavaScript number NaN, kept apart from every finite
number (finite numbers are modelled as rationals). -/
inductive JSValue where
  | null
  | bool (b : Bool)
  | num (q : ℚ)
  | nan
  | str (s : String)
  | arr (elems : List JSValue)
  | obj (fields : List (String × JSValue))

/-- An n8n item json object: an ordered association of field names to values.
Field names are unique, as in a JavaScript object. -/
abbrev Item := List (String × JSValue)

/-- JavaScript property read item.json[f]: the value of the first field named
f, or none for the JavaScript undefined when the field is absent. -/
def lookupField : Item → String → Option JSValue
  | [], _ => none
  | (k, v) :: rest, f => if k = f then some v else lookupField rest f

/-- JavaScript property write obj[f] = v (also the effect of a spread followed
by an assignment): an existing field keeps its position and gets the new
value, a new field is appended at the end. -/
def setField : Item → String → JSValue → Item
  | [], f, v => [(f, v)]
  | (k, w) :: rest, f, v =>
    if k = f then (f, v) :: rest else (k, w) :: setField rest f v

/-- Longest leading run of decimal digits of a character list, with the rest. -/
def takeDigits : List Char → List Char × List Char
  | [] => ([], [])
  | c :: cs =>
    if c.isDigit then
      let p := takeDigits cs
      (c :: p.1, p.2)
    else ([], c :: cs)

/-- Value of a digit list read as a decimal numeral. -/
def digitsToNat (ds : List Char) : ℕ :=
  ds.foldl (fun acc c => 10 * acc + (c.toNat - 48)) 0

/-- Model of the JavaScript builtin parseFloat on ordinary decimal literals:
an optional sign, then digits with an optional fractional part; trailing
garbage is ignored; none stands for NaN when no digits are found at the
start. Exponent forms and the Infinity literal are not modelled; no input
used by a theorem below needs them. -/
def parseFloatChars (cs : List Char) : Option ℚ :=
  let sp : ℚ × List Char :=
    match cs with
    | '-' :: rest => (-1, rest)
    | '+' :: rest => (1, rest)
    | _ => (1, cs)
  let ip := takeDigits sp.2
  let fp : List Char :=
    match ip.2 with
    | '.' :: rest => (takeDigits rest).1
    | _ => []
  if ip.1.isEmpty ∧ fp.isEmpty then none
  else some (sp.1 * ((digitsToNat ip.1 : ℚ) + (digitsToNat fp : ℚ) / (10 : ℚ) ^ fp.length))

/-- parseFloat on a Lean string. -/
def parseFloat (s : String) : Option ℚ :=
  parseFloatChars s.data

/-- Coercion applied by every node to a present, non-null field value:
parseFloat(String(value)). String on a finite number round-trips through
parseFloat, so a numeric value passes through unchanged; String on NaN,
booleans and plain objects yields text with no leading digits, hence NaN;
String on an array joins its elements with commas, so parseFloat reads the
first element. The result none stands for NaN. -/
def coerceValue : JSValue → Option ℚ
  | JSValue.num q => some q
  | JSValue.str s => parseFloat s
  | JSValue.bool _ => none
  | JSValue.nan => none
  | JSValue.null => none
  | JSValue.arr [] => none
  | JSValue.arr (x :: _) => coerceValue x
  | JSValue.obj _ => none

/-- Error thrown by the extraction code: a NodeOperationError with a message
naming the column and an itemIndex option. -/
structure NodeError where
  message : String
  itemIndex : ℕ
deriving DecidableEq

/-- Message text of the StandardScaler, LinearRegression and
LogisticRegression extraction throws. -/
def notFoundInItemMsg (col : String) : String :=
  "Feature column \x27" ++ col ++ "\x27 not found in item"

/-- Message text of the GradientBoosting and MinMaxScaler extraction throws. -/
def notFoundMsg (col : String) : String :=
  "Feature column \x27" ++ col ++ "\x27 not found"

/-- Body of featureColumns.map over one item: a column that is absent or null
throws a NodeOperationError carrying errIdx, any other value is coerced with
parseFloat(String(value)); columns are visited left to right and the first
throw wins. -/
def extractRow (msgOf : String → String) (item : Item) (errIdx : ℕ) :
    List String → Except NodeError (List (Option ℚ))
  | [] => Except.ok []
  | col :: rest =>
    match lookupField item col with
    | none => Except.error ⟨msgOf col, errIdx⟩
    | some JSValue.null => Except.error ⟨msgOf col, errIdx⟩
    | some v =>
      match extractRow msgOf item errIdx rest with
      | Except.error e => Except.error e
      | Except.ok qs => Except.ok (coerceValue v :: qs)

/-- items.map((item, idx) => features) in the GradientBoosting and
LogisticRegression predict branches: the thrown error carries the position
of the record being mapped (start + offset); records are visited in order
and the first throw wins. -/
def extractRows (msgOf : String → String) (cols : List String) :
    List Item → ℕ → Except NodeError (List (List (Option ℚ)))
  | [], _ => Except.ok []
  | item :: rest, idx =>
    match extractRow msgOf item idx cols with
    | Except.error e => Except.error e
    | Except.ok row =>
      match extractRows msgOf cols rest (idx + 1) with
      | Except.error e => Except.error e
      | Except.ok rows => Except.ok (row :: rows)

/-- Whole-batch extraction with per-record error indices, starting at 0. -/
def extractAllIndexed (msgOf : String → String) (cols : List String)
    (items : List Item) : Except NodeError (List (List (Option ℚ))) :=
  extractRows msgOf cols items 0

/-- items.map(...) inside the StandardScaler execute: the map body closes over
the OUTER per-item loop variable itemIndex, so every thrown error carries
that outer index, not the position of the failing record. -/
def extractRowsConst (msgOf : String → String) (cols : List String)
    (itemIndex : ℕ) : List Item → Except NodeError (List (List (Option ℚ)))
  | [] => Except.ok []
  | item :: rest =>
    match extractRow msgOf item itemIndex cols with
    | Except.error e => Except.error e
    | Except.ok row =>
      match extractRowsConst msgOf cols itemIndex rest with
      | Except.error e => Except.error e
      | Except.ok rows => Except.ok (row :: rows)

/-- The close handler of every spawn promise in the repository: a nonzero exit
code rejects with a single Error whose message is the fixed text
"Python script failed: " followed by the accumulated stderr text, and a zero
exit resolves with the trimmed accumulated stdout text. The exit code itself
appears nowhere in the rejection value. -/
def handleClose (code : Int) (stdoutText stderrText : String) : Except String String :=
  if code ≠ 0 then Except.error ("Python script failed: " ++ stderrText)
  else Except.ok stdoutText.trim

/-- Explicit-parameter artifact of the StandardScaler fit operation as read by
the transform worker script: stored per-column mean and scale (each possibly
the JSON null when the corresponding flag was off at fit time) and the two
fit-time flags. -/
structure ScalerArtifact where
  mean : Option (List ℚ)
  scale : Option (List ℚ)
  with_mean : Bool
  with_std : Bool

/-- The Python line mean = np.array(stored mean) if truthy else 0, followed by
X - mean: a stored null or empty list is falsy and gives the scalar 0, and
X - 0 leaves X unchanged; a stored nonempty list is subtracted column-wise
from every row. -/
def centerX (mean : Option (List ℚ)) (X : List (List ℚ)) : List (List ℚ) :=
  match mean with
  | some (m :: ms) => X.map fun row => List.zipWith (fun x mj => x - mj) row (m :: ms)
  | _ => X

/-- The Python line scale = np.array(stored scale) if truthy else 1, followed
by X / scale: a stored null or empty list is falsy and gives the scalar 1,
and X / 1 leaves X unchanged; a stored nonempty list divides every row
column-wise. -/
def scaleX (scale : Option (List ℚ)) (X : List (List ℚ)) : List (List ℚ) :=
  match scale with
  | some (s :: ss) => X.map fun row => List.zipWith (fun x sj => x / sj) row (s :: ss)
  | _ => X

/-- The transform worker script of the StandardScaler node: the if/elif chain
on the stored fit-time flags, replaying only arithmetic on the stored
statistics; no fitting routine appears on this path. -/
def scalerTransform (a : ScalerArtifact) (X : List (List ℚ)) : List (List ℚ) :=
  if a.with_mean && a.with_std then scaleX a.scale (centerX a.mean X)
  else if a.with_mean then centerX a.mean X
  else if a.with_std then scaleX a.scale X
  else X

/-- Explicit-parameter artifact of the LinearRegression train operation as
read by the predict worker script. -/
structure LinModel where
  coefficients : List ℚ
  intercept : ℚ

/-- Inner product as computed by np.dot on two equal-length vectors. -/
def dotProd : List ℚ → List ℚ → ℚ
  | x :: xs, y :: ys => x * y + dotProd xs ys
  | _, _ => 0

/-- The predict worker script of the LinearRegression node:
float(np.dot(X, coefficients) + intercept) on the stored coefficients and
intercept; no fitting routine appears on this path. A NaN feature would be
serialized as JSON null and crash the worker; that branch is modelled as a
NaN reply and is exercised by no theorem below. -/
def linWorkerPredict (m : LinModel) (features : List (Option ℚ)) : Option ℚ :=
  if features.all Option.isSome then
    some (dotProd (features.map fun f => f.getD 0) m.coefficients + m.intercept)
  else none

/-- An artifact document as handed to a predict branch: the raw JSON text the
node passes to the worker verbatim, together with the model-family tag and
stored feature count that the text carries (when present). -/
structure Artifact where
  raw : String
  model_type : Option String
  n_features : Option ℕ

/-- What the predict branch has produced by the time the worker is spawned:
either the worker invocation itself (raw artifact text plus extracted
matrix) or the extraction error that aborted the branch. -/
inductive PredictPrep where
  | workerInvocation (artifactRaw : String) (matrix : List (List (Option ℚ)))
  | nodeError (e : NodeError)

/-- The LogisticRegression predict branch up to the worker call: JSON-parse
the artifact text, extract the feature matrix from the items, then spawn the
worker with the raw artifact text and the matrix as arguments. No field of
the artifact — neither the model-family tag nor the stored column count — is
consulted anywhere on this path, and no mismatch check of any kind exists
before the worker runs. -/
def logisticPredictPrepare (a : Artifact) (cols : List String)
    (items : List Item) : PredictPrep :=
  match extractAllIndexed notFoundInItemMsg cols items with
  | Except.error e => PredictPrep.nodeError e
  | Except.ok m => PredictPrep.workerInvocation a.raw m

/-- Output record i of the GradientBoosting predict branch:
a spread of the input item, then the prediction, then — for classifier
replies that carry them — the probabilities row. -/
def gbOutputRecord (item : Item) (pred : JSValue) (probs : Option JSValue) : Item :=
  match probs with
  | some p => setField (setField item "prediction" pred) "probabilities" p
  | none => setField item "prediction" pred

/-- The GradientBoosting predict output loop, written as recursion over the
remaining items with the running index i: record i pairs items[i] with
predictions[i] (and probabilities[i] when the worker reply carries
probabilities). The worker reply is aligned to the input rows, so the
defaults of getD are never reached in the theorems below. -/
def gbOutputsLoop (predictions : List JSValue)
    (probabilities : Option (List JSValue)) : List Item → ℕ → List Item
  | [], _ => []
  | item :: rest, i =>
    gbOutputRecord item (predictions.getD i JSValue.null)
      (probabilities.map fun ps => ps.getD i JSValue.null)
      :: gbOutputsLoop predictions probabilities rest (i + 1)

/-- The GradientBoosting predict output loop over the whole batch: one output
record per input item, output index i built from input record i. -/
def gbPredictOutputs (items : List Item) (predictions : List JSValue)
    (probabilities : Option (List JSValue)) : List Item :=
  gbOutputsLoop predictions probabilities items 0

/-- The GradientBoosting predict branch under continue-on-fail: the whole
branch sits in ONE try/catch, so an extraction failure anywhere in the batch
pushes a single record with only an error field and nothing else is emitted
for the batch; on success the aligned worker reply is projected per item. -/
def gbPredictExecuteCOF (cols : List String) (items : List Item)
    (predictions : List JSValue) (probabilities : Option (List JSValue)) :
    List Item :=
  match extractAllIndexed notFoundMsg cols items with
  | Except.error e => [[("error", JSValue.str e.message)]]
  | Except.ok _ => gbPredictOutputs items predictions probabilities

/-- One iteration of the LinearRegression predict loop: extract the features
of the CURRENT item only (the thrown error carries the loop variable, which
here IS the failing record index), run the worker on them, and merge the
prediction onto the item. -/
def linPredictIter (cols : List String) (m : LinModel) (item : Item)
    (itemIndex : ℕ) : Except NodeError Item :=
  match extractRow notFoundInItemMsg item itemIndex cols with
  | Except.error e => Except.error e
  | Except.ok fs =>
    Except.ok (setField item "prediction"
      (match linWorkerPredict m fs with
       | some q => JSValue.num q
       | none => JSValue.nan))

/-- The LinearRegression per-item predict loop with its per-iteration catch
under continue-on-fail, as recursion over the remaining items with the
running loop variable: a failing iteration contributes one record with only
an error field and the loop continues with the next item. -/
def linPredictLoopCOF (cols : List String) (m : LinModel) :
    List Item → ℕ → List Item
  | [], _ => []
  | item :: rest, itemIndex =>
    (match linPredictIter cols m item itemIndex with
     | Except.ok out => out
     | Except.error e => [("error", JSValue.str e.message)])
      :: linPredictLoopCOF cols m rest (itemIndex + 1)

/-- The LinearRegression predict branch over the whole batch under
continue-on-fail. -/
def linPredictExecuteCOF (cols : List String) (m : LinModel)
    (items : List Item) : List Item :=
  linPredictLoopCOF cols m items 0

/-- Parsed worker reply of the StandardScaler fitTransform script: the raw
reply text (re-attached verbatim as the scaler field), the fitted
statistics, and the transformed matrix aligned to the input rows. -/
structure ScalerFitReply where
  raw : String
  mean : JSValue
  scale : JSValue
  var : JSValue
  transformed : List (List JSValue)

/-- featureColumns.forEach((col, idx) => newJson[outputPrefix + col] =
transformedFeatures[idx]) starting from the spread of the input item. -/
def addScaledCols (pre : String) (tf : List JSValue) :
    List String → ℕ → Item → Item
  | [], _, acc => acc
  | col :: rest, idx, acc =>
    addScaledCols pre tf rest (idx + 1)
      (setField acc (pre ++ col) (tf.getD idx JSValue.null))

/-- Body of the StandardScaler fitTransform output loop at loop index i, as
recursion over the remaining items: each record carries the prefixed scaled
columns, and record i = 0 additionally gets the scaler JSON text and the
scaler_info statistics. -/
def scalerPassLoop (pre : String) (cols : List String)
    (reply : ScalerFitReply) : List Item → ℕ → List Item
  | [], _ => []
  | item :: rest, i =>
    (if i = 0 then
      setField
        (setField (addScaledCols pre (reply.transformed.getD i []) cols 0 item)
          "scaler" (JSValue.str reply.raw))
        "scaler_info"
        (JSValue.obj [("mean", reply.mean), ("scale", reply.scale), ("variance", reply.var)])
    else addScaledCols pre (reply.transformed.getD i []) cols 0 item)
      :: scalerPassLoop pre cols reply rest (i + 1)

/-- One pass of the StandardScaler fitTransform output loop over the whole
batch. -/
def scalerFitTransformPass (pre : String) (cols : List String)
    (reply : ScalerFitReply) (items : List Item) : List Item :=
  scalerPassLoop pre cols reply items 0

/-- The StandardScaler execute wraps the WHOLE-batch fitTransform branch in a
per-item outer loop: with the node parameters constant across items and the
worker deterministic in its input, every one of the items.length iterations
re-extracts the full batch, re-spawns the worker, and appends one full pass
over all items to the returned data. The first list argument is the full
batch, the second drives the outer loop. -/
def scalerExecLoop (pre : String) (cols : List String)
    (reply : ScalerFitReply) (items : List Item) : List Item → List Item
  | [] => []
  | _ :: rest =>
    scalerFitTransformPass pre cols reply items
      ++ scalerExecLoop pre cols reply items rest

/-- The StandardScaler fitTransform branch over the whole execute call. -/
def scalerFitTransformExecute (pre : String) (cols : List String)
    (reply : ScalerFitReply) (items : List Item) : List Item :=
  scalerExecLoop pre cols reply items items

/-- The MinMaxScaler fitTransform output loop at loop index i, as recursion
over the remaining items: each record carries the prefixed scaled columns,
and record i = 0 additionally gets the scaler JSON text. -/
def minMaxLoop (pre : String) (cols : List String) (raw : String)
    (transformed : List (List JSValue)) : List Item → ℕ → List Item
  | [], _ => []
  | item :: rest, i =>
    (if i = 0 then
      setField (addScaledCols pre (transformed.getD i []) cols 0 item)
        "scaler" (JSValue.str raw)
    else addScaledCols pre (transformed.getD i []) cols 0 item)
      :: minMaxLoop pre cols raw transformed rest (i + 1)

/-- The MinMaxScaler fitTransform output loop (a single batch, no outer
loop): one record per input item carrying the prefixed scaled columns, with
the scaler JSON text attached only to record 0. -/
def minMaxFitTransformOutputs (pre : String) (cols : List String)
    (raw : String) (transformed : List (List JSValue)) (items : List Item) :
    List Item :=
  minMaxLoop pre cols raw transformed items 0

/-- Whether a declared column would pass the extraction check on an item:
present and not null. -/
def presentB (item : Item) (col : String) : Bool :=
  match lookupField item col with
  | none => false
  | some JSValue.null => false
  | some _ => true

/-! Supporting lemmas about the record operations. -/

theorem lookup_setField_self (r : Item) (f : String) (v : JSValue) :
    lookupField (setField r f v) f = some v := by
  induction r with
  | nil => simp [setField, lookupField]
  | cons p rest ih =>
    obtain ⟨k, w⟩ := p
    by_cases h : k = f
    · simp [setField, h, lookupField]
    · simp [setField, h, lookupField, ih]

theorem lookup_setField_ne (r : Item) (f g : String) (v : JSValue)
    (h : g ≠ f) : lookupField (setField r f v) g = lookupField r g := by
  have hfg : ¬f = g := fun hh => h hh.symm
  induction r with
  | nil => simp [setField, lookupField, hfg]
  | cons p rest ih =>
    obtain ⟨k, w⟩ := p
    by_cases hk : k = f
    · subst hk
      simp [setField, lookupField, hfg]
    · by_cases hg : k = g
      · subst hg
        simp [setField, hk, lookupField]
      · simp [setField, hk, lookupField, hg, ih]

theorem addScaledCols_lookup_ne (pre : String) (tf : List JSValue)
    (cols : List String) (g : String) :
    ∀ (idx : ℕ) (acc : Item), (∀ col ∈ cols, pre ++ col ≠ g) →
      lookupField (addScaledCols pre tf cols idx acc) g = lookupField acc g := by
  induction cols with
  | nil => intro idx acc _; simp [addScaledCols]
  | cons c rest ih =>
    intro idx acc h
    rw [addScaledCols]
    rw [ih (idx + 1) _ fun col hc => h col (List.mem_cons_of_mem _ hc)]
    exact lookup_setField_ne _ _ _ _ fun hh =>
      h c (List.mem_cons_self _ _) hh.symm

theorem extractRow_single_present (msgOf : String → String) (item : Item)
    (t : ℕ) (col : String) (h : presentB item col = true) :
    ∃ v, lookupField item col = some v ∧ v ≠ JSValue.null ∧
      extractRow msgOf item t [col] = Except.ok [coerceValue v] := by
  unfold presentB at h
  cases hl : lookupField item col with
  | none => rw [hl] at h; simp at h
  | some v =>
    rw [hl] at h
    have hv : v ≠ JSValue.null := by
      intro hveq
      subst hveq
      simp at h
    refine ⟨v, rfl, hv, ?_⟩
    cases v with
    | null => exact absurd rfl hv
    | bool b => simp [extractRow, hl]
    | num q => simp [extractRow, hl]
    | nan => simp [extractRow, hl]
    | str s => simp [extractRow, hl]
    | arr es => simp [extractRow, hl]
    | obj fs => simp [extractRow, hl]

theorem extractRow_single_absent (msgOf : String → String) (item : Item)
    (t : ℕ) (col : String) (h : presentB item col = false) :
    extractRow msgOf item t [col] = Except.error ⟨msgOf col, t⟩ := by
  unfold presentB at h
  cases hl : lookupField item col with
  | none => simp [extractRow, hl]
  | some v =>
    rw [hl] at h
    cases v <;> simp_all [extractRow, hl]

theorem extractRows_error_at (msgOf : String → String) (col : String) :
    ∀ (items : List Item) (j start : ℕ), j < items.length →
      (∀ i, i < j → presentB (items.getD i []) col = true) →
      presentB (items.getD j []) col = false →
      extractRows msgOf [col] items start = Except.error ⟨msgOf col, start + j⟩ := by
  intro items
  induction items with
  | nil => intro j start hj; simp at hj
  | cons item rest ih =>
    intro j start hj hprev hmiss
    cases j with
    | zero =>
      have h0 := extractRow_single_absent msgOf item start col (by simpa using hmiss)
      simp [extractRows, h0]
    | succ j2 =>
      have h0 : presentB item col = true := by
        have := hprev 0 (Nat.succ_pos _)
        simpa using this
      obtain ⟨v, _, _, hrow⟩ := extractRow_single_present msgOf item start col h0
      have hrec := ih j2 (start + 1) (by simpa using hj)
        (fun i hi => by
          have := hprev (i + 1) (by omega)
          simpa using this)
        (by simpa using hmiss)
      rw [extractRows, hrow, hrec]
      have : start + 1 + j2 = start + (j2 + 1) := by omega
      rw [this]

theorem extractRowsConst_error (msgOf : String → String) (col : String)
    (t : ℕ) : ∀ (items : List Item),
      (∃ j, j < items.length ∧ presentB (items.getD j []) col = false) →
      extractRowsConst msgOf [col] t items = Except.error ⟨msgOf col, t⟩ := by
  intro items
  induction items with
  | nil =>
    rintro ⟨j, hj, _⟩
    simp at hj
  | cons item rest ih =>
    rintro ⟨j, hj, hmiss⟩
    by_cases h0 : presentB item col = true
    · obtain ⟨v, _, _, hrow⟩ := extractRow_single_present msgOf item t col h0
      have hrec : extractRowsConst msgOf [col] t rest = Except.error ⟨msgOf col, t⟩ := by
        apply ih
        cases j with
        | zero =>
          exfalso
          simp only [List.getD_cons_zero] at hmiss
          rw [hmiss] at h0
          exact Bool.noConfusion h0
        | succ j2 => exact ⟨j2, by simpa using hj, by simpa using hmiss⟩
      rw [extractRowsConst, hrow, hrec]
    · have hrow := extractRow_single_absent msgOf item t col (by simpa using h0)
      rw [extractRowsConst, hrow]

theorem zipWith_getD (f : ℚ → ℚ → ℚ) :
    ∀ (as bs : List ℚ) (j : ℕ), j < as.length → j < bs.length →
      (List.zipWith f as bs).getD j 0 = f (as.getD j 0) (bs.getD j 0) := by
  intro as
  induction as with
  | nil => intro bs j h _; simp at h
  | cons a rest ih =>
    intro bs j ha hb
    cases bs with
    | nil => simp at hb
    | cons b rest2 =>
      cases j with
      | zero => simp
      | succ j2 =>
        simp only [List.zipWith_cons_cons, List.getD_cons_succ]
        exact ih rest2 j2 (by simpa using ha) (by simpa using hb)

theorem map_rows_getD (g : List ℚ → List ℚ) :
    ∀ (X : List (List ℚ)) (i : ℕ), i < X.length →
      (X.map g).getD i [] = g (X.getD i []) := by
  intro X
  induction X with
  | nil => intro i h; simp at h
  | cons row rest ih =>
    intro i hi
    cases i with
    | zero => simp
    | succ i2 =>
      simp only [List.map_cons, List.getD_cons_succ]
      exact ih i2 (by simpa using hi)

theorem centerX_getD (mv : List ℚ) (X : List (List ℚ)) (i j : ℕ)
    (hi : i < X.length) (hj : j < (X.getD i []).length)
    (hlen : mv.length = (X.getD i []).length) :
    ((centerX (some mv) X).getD i []).getD j 0
      = (X.getD i []).getD j 0 - mv.getD j 0 := by
  obtain ⟨m, ms, rfl⟩ : ∃ m ms, mv = m :: ms := by
    cases mv with
    | nil => rw [← hlen] at hj; simp at hj
    | cons m ms => exact ⟨m, ms, rfl⟩
  rw [show centerX (some (m :: ms)) X
      = X.map fun row => List.zipWith (fun x mj => x - mj) row (m :: ms) from rfl]
  rw [map_rows_getD _ _ _ hi]
  exact zipWith_getD _ _ _ _ hj (by rw [hlen]; exact hj)

theorem scaleX_getD (sv : List ℚ) (X : List (List ℚ)) (i j : ℕ)
    (hi : i < X.length) (hj : j < (X.getD i []).length)
    (hlen : sv.length = (X.getD i []).length) :
    ((scaleX (some sv) X).getD i []).getD j 0
      = (X.getD i []).getD j 0 / sv.getD j 0 := by
  obtain ⟨s, ss, rfl⟩ : ∃ s ss, sv = s :: ss := by
    cases sv with
    | nil => rw [← hlen] at hj; simp at hj
    | cons s ss => exact ⟨s, ss, rfl⟩
  rw [show scaleX (some (s :: ss)) X
      = X.map fun row => List.zipWith (fun x sj => x / sj) row (s :: ss) from rfl]
  rw [map_rows_getD _ _ _ hi]
  exact zipWith_getD _ _ _ _ hj (by rw [hlen]; exact hj)

theorem centerX_length (mv : List ℚ) (X : List (List ℚ)) (hne : mv ≠ []) :
    (centerX (some mv) X).length = X.length := by
  cases mv with
  | nil => exact absurd rfl hne
  | cons m ms => simp [centerX]

theorem centerX_row_length (mv : List ℚ) (X : List (List ℚ)) (i : ℕ)
    (hi : i < X.length) (hlen : mv.length = (X.getD i []).length) :
    ((centerX (some mv) X).getD i []).length = (X.getD i []).length := by
  cases mv with
  | nil => simp [centerX]
  | cons m ms =>
    rw [show centerX (some (m :: ms)) X
        = X.map fun row => List.zipWith (fun x mj => x - mj) row (m :: ms) from rfl]
    rw [map_rows_getD _ _ _ hi]
    rw [List.length_zipWith, ← hlen]
    omega

theorem dotProd_eq_sum_zipWith :
    ∀ (xs ys : List ℚ),
      dotProd xs ys = (List.zipWith (fun p q => p * q) xs ys).sum := by
  intro xs
  induction xs with
  | nil => intro ys; cases ys <;> simp [dotProd]
  | cons x rest ih =>
    intro ys
    cases ys with
    | nil => simp [dotProd]
    | cons y rest2 => simp [dotProd, ih]

theorem minMaxLoop_getD_pos (pre : String) (cols : List String) (raw : String)
    (transformed : List (List JSValue)) :
    ∀ (lst : List Item) (idx k : ℕ), 0 < idx → k < lst.length →
      (minMaxLoop pre cols raw transformed lst idx).getD k []
        = addScaledCols pre (transformed.getD (idx + k) []) cols 0 (lst.getD k []) := by
  intro lst
  induction lst with
  | nil => intro idx k _ hk; simp at hk
  | cons item rest ih =>
    intro idx k hidx hk
    have hne : ¬idx = 0 := by omega
    cases k with
    | zero => simp [minMaxLoop, hne]
    | succ k2 =>
      simp only [minMaxLoop, List.getD_cons_succ]
      rw [ih (idx + 1) k2 (by omega) (by simpa using hk)]
      have harith : idx + 1 + k2 = idx + (k2 + 1) := by omega
      rw [harith]

theorem scalerExecLoop_eq_join (pre : String) (cols : List String)
    (reply : ScalerFitReply) (items : List Item) :
    ∀ (lst : List Item),
      scalerExecLoop pre cols reply items lst
        = List.flatten (List.replicate lst.length
            (scalerFitTransformPass pre cols reply items)) := by
  intro lst
  induction lst with
  | nil => rfl
  | cons hd rest ih => simp [scalerExecLoop, List.replicate_succ, ih]

/-! Claim theorems. -/

/-- C1: the claim demands that presenting an artifact whose model-family tag
or stored column count does not match the requested operation raise an
ArtifactMismatchError before any reconstruction. The code has no such check:
here an artifact tagged model-family ensemble with three stored features,
presented to the logistic-regression predict branch with a one-column spec,
flows straight into a worker invocation carrying the raw artifact text — no
error of any kind is raised before the worker runs. -/
theorem c1_mismatched_artifact_reaches_worker :
    logisticPredictPrepare
      ⟨"\x7b\x22model_type\x22:\x22ensemble\x22,\x22n_features\x22:3\x7d",
        some "ensemble", some 3⟩
      ["x"] [[("x", JSValue.num 1)]]
      = PredictPrep.workerInvocation
          "\x7b\x22model_type\x22:\x22ensemble\x22,\x22n_features\x22:3\x7d"
          [[some 1]] := rfl

/-- C2: the apply paths replay the stored arithmetic directly. For the
scaler, entry (i, j) of the transform output is (x - mean j) / scale j when
both fit-time flags are set, x - mean j with centering only, x / scale j
with scaling only, and x untouched with neither — the flags carried in the
artifact are honored at apply time, and the computation is pure arithmetic
on the stored statistics. For the linear model, the worker reply is the
inner product of the features with the stored coefficients plus the stored
intercept. -/
theorem c2_explicit_artifact_replays_arithmetic :
    (∀ (a : ScalerArtifact) (X : List (List ℚ)) (mv sv : List ℚ) (i j : ℕ),
      a.mean = some mv → a.scale = some sv →
      i < X.length → j < (X.getD i []).length →
      mv.length = (X.getD i []).length → sv.length = (X.getD i []).length →
      ((scalerTransform a X).getD i []).getD j 0 =
        (if a.with_mean && a.with_std then
          ((X.getD i []).getD j 0 - mv.getD j 0) / sv.getD j 0
        else if a.with_mean then (X.getD i []).getD j 0 - mv.getD j 0
        else if a.with_std then (X.getD i []).getD j 0 / sv.getD j 0
        else (X.getD i []).getD j 0))
    ∧ (∀ (c : List ℚ) (b : ℚ) (xs : List ℚ),
      linWorkerPredict ⟨c, b⟩ (xs.map fun q => some q)
        = some ((List.zipWith (fun p q => p * q) xs c).sum + b)) := by
  constructor
  · rintro ⟨mean, scale, wm, ws⟩ X mv sv i j hm hs hi hj hmv hsv
    obtain rfl : mean = some mv := hm
    obtain rfl : scale = some sv := hs
    have hne : mv ≠ [] := by
      intro hnil
      subst hnil
      rw [List.length_nil] at hmv
      omega
    cases wm <;> cases ws
    case false.false => simp [scalerTransform]
    case false.true =>
      simp only [scalerTransform]
      simp only [Bool.false_and, Bool.false_eq_true, if_false, if_true]
      exact scaleX_getD sv X i j hi hj hsv
    case true.false =>
      simp only [scalerTransform]
      simp only [Bool.and_false, Bool.false_eq_true, if_false, if_true]
      exact centerX_getD mv X i j hi hj hmv
    case true.true =>
      simp only [scalerTransform]
      simp only [Bool.and_self, if_true]
      have h1 : i < (centerX (some mv) X).length := by
        rw [centerX_length mv X hne]; exact hi
      have h2 : ((centerX (some mv) X).getD i []).length
          = (X.getD i []).length := centerX_row_length mv X i hi hmv
      have h3 : j < ((centerX (some mv) X).getD i []).length := by
        rw [h2]; exact hj
      have h4 : sv.length = ((centerX (some mv) X).getD i []).length := by
        rw [h2]; exact hsv
      rw [scaleX_getD sv _ i j h1 h3 h4, centerX_getD mv X i j hi hj hmv]
  · intro c b xs
    unfold linWorkerPredict
    have hall : (xs.map fun q => some q).all Option.isSome = true := by
      simp [List.all_map]
    simp only [hall, if_true]
    simp [List.map_map, Function.comp_def, dotProd_eq_sum_zipWith]

/-- C2 witness: centering-and-scaling artifact with mean 2 and scale 3
applied to the single-cell matrix with entry 8 yields (8 - 2) / 3, and the
linear worker on feature 2 with coefficient 3 and intercept 1 yields
2 * 3 + 1. -/
theorem c2_witness :
    ((scalerTransform ⟨some [2], some [3], true, true⟩ [[8]]).getD 0 []).getD 0 0
      = ((8 : ℚ) - 2) / 3
    ∧ linWorkerPredict ⟨[3], 1⟩ [some 2] = some (2 * 3 + 1) := by
  constructor
  · have h := c2_explicit_artifact_replays_arithmetic.1
      ⟨some [2], some [3], true, true⟩ [[8]] [2] [3] 0 0 rfl rfl
      (by simp) (by simp) (by simp) (by simp)
    simpa using h
  · have h := c2_explicit_artifact_replays_arithmetic.2 [3] 1 [2]
    simpa using h

/-- C3: the claim says every operation submits its records as one batch and
emits exactly one output per input. The StandardScaler fitTransform branch
sits inside a per-item outer loop that re-runs the whole-batch operation
once per input item: a 2-record batch produces 4 output records (the full
batch output twice over), not 2. -/
theorem c3_outer_loop_duplicates_batch :
    (scalerFitTransformExecute "scaled_" ["a"]
        ⟨"RAW", JSValue.arr [JSValue.num 0], JSValue.arr [JSValue.num 1],
          JSValue.arr [JSValue.num 1], [[JSValue.num 1], [JSValue.num 2]]⟩
        [[("a", JSValue.num 1)], [("a", JSValue.num 2)]]).length = 4
    ∧ ([[("a", JSValue.num 1)], [("a", JSValue.num 2)]] : List Item).length = 2 :=
  ⟨rfl, rfl⟩

/-- C4 counterexample: the StandardScaler extraction closes over the OUTER
loop variable. On a 3-record batch whose record at position 2 lacks the
declared column age, the first outer iteration (itemIndex 0) extracts the
whole batch and throws an error reporting index 0 — not 2, the failing
record's position — although the column name is reported exactly. -/
theorem c4_scaler_reports_outer_index :
    extractRowsConst notFoundInItemMsg ["age"] 0
      [[("age", JSValue.num 30)], [("age", JSValue.num 40)], [("x", JSValue.num 2)]]
      = Except.error ⟨notFoundInItemMsg "age", 0⟩
    ∧ lookupField [("x", JSValue.num 2)] "age" = none
    ∧ (0 : ℕ) ≠ 2 :=
  ⟨rfl, rfl, by decide⟩

/-- C4 (amended): extraction failure on a declared column always names that
exact column; in the GradientBoosting/LogisticRegression style extraction
(indexed map) the reported index is the failing record's position j, for any
j including 0, the middle and n - 1; in the StandardScaler style extraction
the reported index is the outer loop's current item index t, whatever the
failing record's position. -/
theorem c4_error_index_amended (col : String) (items : List Item) (j t : ℕ)
    (hj : j < items.length)
    (hprev : ∀ i, i < j → presentB (items.getD i []) col = true)
    (hmiss : presentB (items.getD j []) col = false) :
    extractAllIndexed notFoundInItemMsg [col] items
      = Except.error ⟨notFoundInItemMsg col, j⟩
    ∧ extractRowsConst notFoundInItemMsg [col] t items
      = Except.error ⟨notFoundInItemMsg col, t⟩ := by
  constructor
  · have h := extractRows_error_at notFoundInItemMsg col items j 0 hj hprev hmiss
    simpa [extractAllIndexed] using h
  · exact extractRowsConst_error notFoundInItemMsg col t items ⟨j, hj, hmiss⟩

/-- C4 witness: on the 3-record batch failing at position 2, the indexed
extraction reports index 2 and the outer-variable extraction run at outer
index 7 reports 7. -/
theorem c4_error_index_witness :
    extractAllIndexed notFoundInItemMsg ["age"]
      [[("age", JSValue.num 30)], [("age", JSValue.num 40)], [("x", JSValue.num 2)]]
      = Except.error ⟨notFoundInItemMsg "age", 2⟩
    ∧ extractRowsConst notFoundInItemMsg ["age"] 7
      [[("age", JSValue.num 30)], [("age", JSValue.num 40)], [("x", JSValue.num 2)]]
      = Except.error ⟨notFoundInItemMsg "age", 7⟩ :=
  c4_error_index_amended "age"
    [[("age", JSValue.num 30)], [("age", JSValue.num 40)], [("x", JSValue.num 2)]]
    2 7 (by decide) (by decide) (by decide)

/-- C5 counterexample: a present but non-numeric value raises no error at
all: extracting the declared column age from the single record carrying the
text abc SUCCEEDS, and the NaN produced by parseFloat (modelled as none)
silently becomes the matrix entry. -/
theorem c5_non_numeric_enters_matrix :
    extractAllIndexed notFoundInItemMsg ["age"] [[("age", JSValue.str "abc")]]
      = Except.ok [[none]] := rfl

/-- C5 (amended): extraction raises a field- and row-addressed error only
for absent or null columns; any present non-null value is accepted without
an error, its parseFloat coercion entering the matrix — a non-numeric text
becomes NaN, and text with a numeric head is silently truncated to it. -/
theorem c5_coercion_never_rejects (item : Item) (col : String) (t : ℕ)
    (v : JSValue) (hv : lookupField item col = some v)
    (hnn : v ≠ JSValue.null) :
    extractRow notFoundInItemMsg item t [col] = Except.ok [coerceValue v]
    ∧ coerceValue (JSValue.str "abc") = none
    ∧ coerceValue (JSValue.str "3x") = some 3 := by
  refine ⟨?_, rfl, ?_⟩
  · have hp : presentB item col = true := by
      unfold presentB
      rw [hv]
      cases v
      case null => exact absurd rfl hnn
      all_goals rfl
    obtain ⟨w, hw, _, hrow⟩ :=
      extractRow_single_present notFoundInItemMsg item t col hp
    rw [hv] at hw
    obtain rfl : v = w := Option.some.inj hw
    exact hrow
  · show parseFloat "3x" = some 3
    have hred : parseFloat "3x"
        = some ((1 : ℚ) * (((3 : ℕ) : ℚ) + ((0 : ℕ) : ℚ) / (10 : ℚ) ^ (0 : ℕ))) := rfl
    rw [hred]
    norm_num

/-- C6 counterexample: the GradientBoosting predict branch wraps the WHOLE
batch in one try/catch, so under continue-on-fail a 5-record batch whose
record at position 2 lacks the declared column age collapses to a single
error record — the remaining 4 records produce no output at all. -/
theorem c6_whole_batch_single_error_record :
    gbPredictExecuteCOF ["age"]
      [[("age", JSValue.num 10)], [("age", JSValue.num 20)], [("x", JSValue.num 0)],
       [("age", JSValue.num 30)], [("age", JSValue.num 40)]]
      [JSValue.num 0, JSValue.num 0, JSValue.num 0, JSValue.num 0, JSValue.num 0]
      none
      = [[("error", JSValue.str (notFoundMsg "age"))]] := rfl

/-- C6 (amended): nodes with a per-item loop and a per-iteration catch do
behave as the claim says: on the LinearRegression predict branch with
coefficients [2] and intercept 1, a 5-record batch whose record at position
2 lacks the declared column age yields 5 output records, the failing one
replaced by an error marker naming the column while the other 4 carry their
predictions; whole-batch nodes (previous theorem) do not. -/
theorem c6_per_item_loop_isolates_failure :
    linPredictExecuteCOF ["age"] ⟨[2], 1⟩
      [[("age", JSValue.num 10)], [("age", JSValue.num 20)], [("x", JSValue.num 0)],
       [("age", JSValue.num 30)], [("age", JSValue.num 40)]]
      = [[("age", JSValue.num 10), ("prediction", JSValue.num 21)],
         [("age", JSValue.num 20), ("prediction", JSValue.num 41)],
         [("error", JSValue.str (notFoundInItemMsg "age"))],
         [("age", JSValue.num 30), ("prediction", JSValue.num 61)],
         [("age", JSValue.num 40), ("prediction", JSValue.num 81)]] := by
  have h1 : ¬("age" = "prediction") := by decide
  have h2 : ¬("x" = "age") := by decide
  have h3 : ¬("x" = "prediction") := by decide
  norm_num [linPredictExecuteCOF, linPredictLoopCOF, linPredictIter, extractRow,
    lookupField, linWorkerPredict, dotProd, setField, coerceValue, h1, h2, h3]

/-- C7 counterexample: two worker invocations that differ only in their
nonzero exit codes (3 and 4) are rejected with identical errors, so the
rejection cannot carry the exit code; the error text is the fixed prefix
followed by the stderr text. -/
theorem c7_exit_code_not_carried :
    handleClose 3 "" "boom" = handleClose 4 "" "boom"
    ∧ handleClose 3 "" "boom" = Except.error ("Python script failed: boom") :=
  ⟨rfl, rfl⟩

/-- C7 (amended): a nonzero worker exit rejects with a single error whose
message is the fixed prefix followed by the stderr text verbatim — the exit
code itself is not carried — and a zero exit resolves with the trimmed
stdout text. -/
theorem c7_close_handler_amended (code : Int) (outText errText : String) :
    (code ≠ 0 → handleClose code outText errText
      = Except.error ("Python script failed: " ++ errText))
    ∧ (code = 0 → handleClose code outText errText = Except.ok outText.trim) := by
  constructor
  · intro h
    simp [handleClose, h]
  · intro h
    simp [handleClose, h]

/-- C7 witness: exit code 3 with stderr boom rejects with the prefixed boom
message; exit code 0 resolves with the trimmed stdout. -/
theorem c7_close_handler_witness :
    ((3 : Int) ≠ 0
      ∧ handleClose 3 "out" "boom" = Except.error ("Python script failed: boom"))
    ∧ ((0 : Int) = 0 ∧ handleClose 0 " out " "x" = Except.ok " out ".trim) :=
  ⟨⟨by decide, (c7_close_handler_amended 3 "out" "boom").1 (by decide)⟩,
   ⟨rfl, (c7_close_handler_amended 0 " out " "x").2 rfl⟩⟩

/-- C8 counterexample: the StandardScaler per-item outer loop repeats the
whole fitTransform output once per input item, so on a 2-record batch the
scaler metadata reappears on output record 2 — an index greater than 0 —
contradicting the claim that only record 0 of the batch carries it. -/
theorem c8_metadata_recurs_in_later_records :
    lookupField
      ((scalerFitTransformExecute "scaled_" ["a"]
          ⟨"RAW", JSValue.arr [JSValue.num 0], JSValue.arr [JSValue.num 1],
            JSValue.arr [JSValue.num 1], [[JSValue.num 1], [JSValue.num 2]]⟩
          [[("a", JSValue.num 1)], [("a", JSValue.num 2)]]).getD 2 [])
      "scaler"
      = some (JSValue.str "RAW")
    ∧ (2 : ℕ) ≠ 0 :=
  ⟨rfl, by decide⟩

/-- C8 (amended): the artifact metadata is attached only to the first record
of each emitted batch pass. The MinMaxScaler fitTransform emits a single
pass, so there record 0 alone carries the scaler text and every later
record keeps whatever scaler field its input had; the StandardScaler
fitTransform emits one full pass per input item, so its output is the
single pass repeated items.length times and the metadata recurs at the
start of every pass. -/
theorem c8_metadata_on_first_record_of_pass :
    (∀ (pre : String) (cols : List String) (raw : String)
        (transformed : List (List JSValue)) (items : List Item) (i : ℕ),
      0 < i → i < items.length → (∀ col ∈ cols, pre ++ col ≠ "scaler") →
      lookupField
          ((minMaxFitTransformOutputs pre cols raw transformed items).getD i [])
          "scaler"
        = lookupField (items.getD i []) "scaler")
    ∧ (∀ (pre : String) (cols : List String) (raw : String)
        (transformed : List (List JSValue)) (item : Item) (rest : List Item),
      lookupField
          ((minMaxFitTransformOutputs pre cols raw transformed (item :: rest)).getD 0 [])
          "scaler"
        = some (JSValue.str raw))
    ∧ (∀ (pre : String) (cols : List String) (reply : ScalerFitReply)
        (items : List Item),
      scalerFitTransformExecute pre cols reply items
        = List.flatten (List.replicate items.length
            (scalerFitTransformPass pre cols reply items))) := by
  refine ⟨?_, ?_, ?_⟩
  · intro pre cols raw transformed items i hi hlen hcols
    cases items with
    | nil => simp at hlen
    | cons item rest =>
      cases i with
      | zero => simp at hi
      | succ i2 =>
        show lookupField ((minMaxLoop pre cols raw transformed (item :: rest) 0).getD
            (i2 + 1) []) "scaler" = _
        rw [minMaxLoop]
        simp only [List.getD_cons_succ]
        rw [minMaxLoop_getD_pos pre cols raw transformed rest 1 i2 (by omega)
          (by simpa using hlen)]
        rw [addScaledCols_lookup_ne pre _ cols "scaler" 0 _ hcols]
  · intro pre cols raw transformed item rest
    show lookupField ((minMaxLoop pre cols raw transformed (item :: rest) 0).getD 0 [])
        "scaler" = _
    rw [minMaxLoop]
    simp only [List.getD_cons_zero, if_pos rfl]
    exact lookup_setField_self _ _ _
  · intro pre cols reply items
    exact scalerExecLoop_eq_join pre cols reply items items

/-- C8 witness: on a concrete 2-record MinMaxScaler fitTransform, record 1
carries no scaler field while record 0 does, and a concrete StandardScaler
fitTransform equals its single pass repeated twice. -/
theorem c8_witness :
    lookupField
        ((minMaxFitTransformOutputs "scaled_" ["a"] "RAW"
            [[JSValue.num 1], [JSValue.num 2]]
            [[("a", JSValue.num 1)], [("a", JSValue.num 2)]]).getD 1 [])
        "scaler"
      = lookupField [("a", JSValue.num 2)] "scaler"
    ∧ lookupField
        ((minMaxFitTransformOutputs "scaled_" ["a"] "RAW"
            [[JSValue.num 1], [JSValue.num 2]]
            [[("a", JSValue.num 1)], [("a", JSValue.num 2)]]).getD 0 [])
        "scaler"
      = some (JSValue.str "RAW")
    ∧ scalerFitTransformExecute "s_" ["a"]
        ⟨"R", JSValue.null, JSValue.null, JSValue.null, [[JSValue.num 1]]⟩
        [[("a", JSValue.num 1)]]
      = List.flatten (List.replicate 1
          (scalerFitTransformPass "s_" ["a"]
            ⟨"R", JSValue.null, JSValue.null, JSValue.null, [[JSValue.num 1]]⟩
            [[("a", JSValue.num 1)]])) :=
  ⟨c8_metadata_on_first_record_of_pass.1 "scaled_" ["a"] "RAW"
      [[JSValue.num 1], [JSValue.num 2]]
      [[("a", JSValue.num 1)], [("a", JSValue.num 2)]] 1
      (by decide) (by decide) (by decide),
   c8_metadata_on_first_record_of_pass.2.1 "scaled_" ["a"] "RAW"
      [[JSValue.num 1], [JSValue.num 2]]
      [("a", JSValue.num 1)] [[("a", JSValue.num 2)]],
   c8_metadata_on_first_record_of_pass.2.2 "s_" ["a"]
      ⟨"R", JSValue.null, JSValue.null, JSValue.null, [[JSValue.num 1]]⟩
      [[("a", JSValue.num 1)]]⟩

/-- C9: the result projectors spread the whole original record into the
output and then assign only the computed fields, so every field whose name
is not a generated output name keeps its original value: for the
GradientBoosting predict merge, any field other than prediction and
probabilities; for the scaler transform merge, any field not of the form
outputPrefix ++ column. -/
theorem c9_unrelated_fields_preserved :
    (∀ (item : Item) (p : JSValue) (probs : Option JSValue) (f : String),
      f ≠ "prediction" → f ≠ "probabilities" →
      lookupField (gbOutputRecord item p probs) f = lookupField item f)
    ∧ (∀ (pre : String) (cols : List String) (tf : List JSValue) (idx : ℕ)
        (item : Item) (g : String), (∀ col ∈ cols, pre ++ col ≠ g) →
      lookupField (addScaledCols pre tf cols idx item) g = lookupField item g) := by
  constructor
  · intro item p probs f hf1 hf2
    cases probs with
    | none => exact lookup_setField_ne _ _ _ _ hf1
    | some pr =>
      show lookupField (setField (setField item "prediction" p) "probabilities" pr) f
          = lookupField item f
      rw [lookup_setField_ne _ _ _ _ hf2]
      exact lookup_setField_ne _ _ _ _ hf1
  · intro pre cols tf idx item g h
    exact addScaledCols_lookup_ne pre tf cols g idx item h

/-- C9 witness: a record field named age survives both the GradientBoosting
predict merge and the scaler column merge unchanged. -/
theorem c9_witness :
    lookupField (gbOutputRecord [("age", JSValue.num 30)] (JSValue.num 1)
        (some (JSValue.arr []))) "age"
      = lookupField [("age", JSValue.num 30)] "age"
    ∧ lookupField (addScaledCols "scaled_" [JSValue.num 5] ["age"] 0
        [("age", JSValue.num 30)]) "age"
      = lookupField [("age", JSValue.num 30)] "age" :=
  ⟨c9_unrelated_fields_preserved.1 _ _ _ "age" (by decide) (by decide),
   c9_unrelated_fields_preserved.2 "scaled_" ["age"] [JSValue.num 5] 0
     [("age", JSValue.num 30)] "age" (by decide)⟩

/-- C10: when an input record already carries a field named prediction, the
GradientBoosting predict merge silently overwrites it — the output value at
prediction is always the computed one, whatever value the record held. -/
theorem c10_collision_overwritten (item : Item) (p v : JSValue)
    (probs : Option JSValue)
    (_hv : lookupField item "prediction" = some v) :
    lookupField (gbOutputRecord item p probs) "prediction" = some p := by
  cases probs with
  | none => exact lookup_setField_self _ _ _
  | some pr =>
    show lookupField (setField (setField item "prediction" p) "probabilities" pr)
        "prediction" = some p
    rw [lookup_setField_ne _ _ _ _ (by decide)]
    exact lookup_setField_self _ _ _

/-- C10 witness: a record with prediction 7 merged with computed prediction
42 ends up with 42 at the prediction field. -/
theorem c10_collision_witness :
    lookupField [("prediction", JSValue.num 7)] "prediction"
      = some (JSValue.num 7)
    ∧ lookupField
        (gbOutputRecord [("prediction", JSValue.num 7)] (JSValue.num 42) none)
        "prediction"
      = some (JSValue.num 42) :=
  ⟨rfl, c10_collision_overwritten _ _ (JSValue.num 7) none rfl⟩

/-- C5 witness: the record carrying the text 3x in its declared column age is
extracted without error, and its coercion value is 3 — the numeric head of
the text — not a rejection. -/
theorem c5_coercion_witness :
    extractRow notFoundInItemMsg [("age", JSValue.str "3x")] 0 ["age"]
      = Except.ok [coerceValue (JSValue.str "3x")]
    ∧ coerceValue (JSValue.str "abc") = none
    ∧ coerceValue (JSValue.str "3x") = some 3 :=
  c5_coercion_never_rejects [("age", JSValue.str "3x")] "age" 0
    (JSValue.str "3x") rfl (fun h => JSValue.noConfusion h)
